import Mathlib

/-!
Verification of the serac transient-physics framework specification against
its source. The development shallowly embeds:

* `src/serac/numerics/functional/geometry.hpp` (quadrature point counts),
* `src/serac/physics/thermomechanics.hpp` (the operator-split coupled module),
* the heat-transfer adjoint test driver
  `src/serac/physics/tests/dynamic_thermal_adjoint.cpp`, together with a
  spec-modelled backward-Euler heat module (the `HeatTransfer` implementation
  itself is not part of the provided sources).

Machine doubles are modelled as exact rationals; fatal `SLIC_ERROR` aborts are
modelled as `Except` errors drawn from the spec's error taxonomy (spec section 7).
-/

namespace Serac

instance {ε α : Type} [DecidableEq ε] [DecidableEq α] : DecidableEq (Except ε α) := fun x y =>
  match x, y with
  | .ok a, .ok b => if h : a = b then .isTrue (by rw [h]) else .isFalse (by simp [h])
  | .error a, .error b => if h : a = b then .isTrue (by rw [h]) else .isFalse (by simp [h])
  | .ok _, .error _ => .isFalse (by simp)
  | .error _, .ok _ => .isFalse (by simp)

/-- Error taxonomy from spec section 7, plus a catch-all for unclassified fatal
`SLIC_ERROR_ROOT` aborts. -/
inductive SeracError where
  | ConfigurationError
  | ConvergenceFailure
  | InvalidState
  | InconsistentTimestep
  | UnsupportedOperation
  | MissingCapability
  | FatalError
  deriving DecidableEq, Repr

/-! ### Geometry embedding: `src/serac/numerics/functional/geometry.hpp` -/

/-- The `mfem::Geometry::Type` enumeration values used by the source. -/
inductive GeometryType where
  | POINT
  | SEGMENT
  | TRIANGLE
  | SQUARE
  | TETRAHEDRON
  | CUBE
  | PRISM
  | PYRAMID
  deriving DecidableEq, Repr

/-- Embedding of `num_quadrature_points` (geometry.hpp lines 25-43).  C++ `int`
division truncates toward zero, which is `Int.tdiv`. -/
def num_quadrature_points (g : GeometryType) (q : ℤ) : ℤ :=
  if g = .SEGMENT then q
  else if g = .TRIANGLE then Int.tdiv (q * (q + 1)) 2
  else if g = .SQUARE then q * q
  else if g = .TETRAHEDRON then Int.tdiv (q * (q + 1) * (q + 2)) 6
  else if g = .CUBE then q * q * q
  else -1

/-- Embedding of `dimension_of` (geometry.hpp lines 49-64). -/
def dimension_of (g : GeometryType) : ℤ :=
  if g = .SEGMENT then 1
  else if g = .TRIANGLE ∨ g = .SQUARE then 2
  else if g = .TETRAHEDRON ∨ g = .CUBE then 3
  else -1

/-! ### Operator-split coupled module: `src/serac/physics/thermomechanics.hpp` -/

/-- The coupling strategies; the source tags the selected one in `coupling_`.
Only `OperatorSplit` is implemented; `Monolithic` stands for every other
selection. -/
inductive CouplingScheme where
  | OperatorSplit
  | Monolithic
  deriving DecidableEq, Repr

/-- What a sub-module parameter slot holds after registration: the constructor
wires slot 0 of the thermal module to the solid displacement field and slot 0
of the solid module to the thermal temperature field
(thermomechanics.hpp lines 56-57); `setParameter` stores a user field. -/
inductive ParamSource where
  | solidDisplacement
  | thermalTemperature
  | userField (id : ℕ)
  deriving DecidableEq, Repr

/-- The named primal fields exposed by `Thermomechanics::state` /
`stateNames` (thermomechanics.hpp lines 94-117). -/
inductive CoupledField where
  | displacement
  | velocity
  | temperature
  deriving DecidableEq, Repr

/-- Observable state of the `Thermomechanics` module relevant to the claims:
the selected coupling strategy, the cycle counter `cycle_`, and the parameter
registration tables of the two sub-modules. -/
structure Thermomechanics where
  coupling : CouplingScheme
  cycle : ℤ
  thermalParams : ℕ → Option ParamSource
  solidParams : ℕ → Option ParamSource

/-- The constructor (thermomechanics.hpp lines 42-60): slot 0 of each
sub-module is wired to the other module's primary field, and the coupling is
set to `OperatorSplit`. -/
def Thermomechanics.construct : Thermomechanics where
  coupling := .OperatorSplit
  cycle := 0
  thermalParams := fun j => if j = 0 then some .solidDisplacement else none
  solidParams := fun j => if j = 0 then some .thermalTemperature else none

/-- `Thermomechanics::completeSetup` (lines 67-74): a fatal error unless the
coupling is operator split; otherwise finishes the sub-module setups. -/
def Thermomechanics.completeSetup (m : Thermomechanics) :
    Except SeracError Thermomechanics :=
  if m.coupling ≠ CouplingScheme.OperatorSplit then
    .error .UnsupportedOperation
  else
    .ok m

/-- `Thermomechanics::setParameter` (lines 82-86): registers the user field at
index `i + 1` of both sub-modules, offset past the coupling field in slot 0. -/
def Thermomechanics.setParameter (m : Thermomechanics) (fieldId : ℕ) (i : ℕ) :
    Thermomechanics :=
  { m with
    thermalParams := fun j => if j = i + 1 then some (.userField fieldId) else m.thermalParams j
    solidParams := fun j => if j = i + 1 then some (.userField fieldId) else m.solidParams j }

/-- `Thermomechanics::stateNames` (lines 114-117). -/
def Thermomechanics.stateNames : List String :=
  ["displacement", "velocity", "temperature"]

/-- `Thermomechanics::state` (lines 94-107): three recognized names map to the
sub-module fields; any other name hits a fatal `SLIC_ERROR_ROOT`. -/
def Thermomechanics.state (state_name : String) : Except SeracError CoupledField :=
  if state_name = "displacement" then .ok .displacement
  else if state_name = "velocity" then .ok .velocity
  else if state_name = "temperature" then .ok .temperature
  else .error .FatalError

/-- `Thermomechanics::advanceTimestep` (lines 126-139).  The sub-module
advances are abstracted as their effect on the by-reference `dt` argument
(`thermalStep`, `solidStep`); the solid sub-step receives the thermal
sub-step's output.  After both sub-steps a fatal error fires when the final
`dt` drifted from the initial one by more than `1.0e-6`; on success `cycle_`
increments and the final `dt` is returned. -/
def Thermomechanics.advanceTimestep (m : Thermomechanics)
    (thermalStep solidStep : ℚ → ℚ) (dt : ℚ) :
    Except SeracError (Thermomechanics × ℚ) :=
  match m.coupling with
  | .OperatorSplit =>
      let initial_dt := dt
      let dt1 := thermalStep dt
      let dt2 := solidStep dt1
      if |dt2 - initial_dt| > 1 / 1000000 then
        .error .InconsistentTimestep
      else
        .ok ({ m with cycle := m.cycle + 1 }, dt2)
  | .Monolithic => .error .UnsupportedOperation

/-- Driver loop: `completeSetup` followed by `n` forward steps, as in the
example drivers.  Used to express that a setup failure prevents any forward
stepping. -/
def Thermomechanics.runForward (m : Thermomechanics)
    (thermalStep solidStep : ℚ → ℚ) (dt : ℚ) : ℕ → Except SeracError Thermomechanics
  | 0 => m.completeSetup
  | n + 1 => do
      let m' ← m.runForward thermalStep solidStep dt n
      let (m'', _) ← m'.advanceTimestep thermalStep solidStep dt
      pure m''

/-! ### Field-level data flow of one coupling step -/

/-- The two cross-coupled primal fields of the coupled module, with values in
an arbitrary coefficient type `F`. -/
structure CoupledFields (F : Type) where
  temperature : F
  displacement : F
  deriving DecidableEq, Repr

/-- Field-level data flow of one `Thermomechanics::advanceTimestep` coupling
step (thermomechanics.hpp lines 126-139 together with the constructor wiring
at lines 56-57): `thermal_` advances first, reading its parameter slot 0 — a
live reference to `solid_.displacement()`, still holding the previous step's
value — then `solid_` advances, reading its parameter slot 0 — a live
reference to the temperature that `thermal_` has just updated in place.  The
sub-module solvers are abstracted as functions of (own previous field,
parameter field). -/
def coupledStep {F : Type} (thermalAdvance solidAdvance : F → F → F)
    (s : CoupledFields F) : CoupledFields F :=
  let t := thermalAdvance s.temperature s.displacement
  let d := solidAdvance s.displacement t
  { temperature := t, displacement := d }

/-- Modelled from the spec: section 4.4's coupling contract in its own words —
advance each sub-module once per coupling step, Gauss-Seidel style in the
fixed order thermal-then-mechanical, each module's just-updated primal field
fed to the other module as the frozen parameter of its next solve. -/
def gaussSeidelSpecStep {F : Type} (thermalAdvance solidAdvance : F → F → F)
    (s : CoupledFields F) : CoupledFields F :=
  let updated_temperature := thermalAdvance s.temperature s.displacement
  let updated_displacement := solidAdvance s.displacement updated_temperature
  { temperature := updated_temperature, displacement := updated_displacement }

/-- Modelled from the spec: section 3's coupling-descriptor wording — each
module treats the other's previous-step state as a frozen parameter
(Jacobi style, both sub-modules reading start-of-step values). -/
def jacobiSpecStep {F : Type} (thermalAdvance solidAdvance : F → F → F)
    (s : CoupledFields F) : CoupledFields F :=
  let updated_temperature := thermalAdvance s.temperature s.displacement
  let updated_displacement := solidAdvance s.displacement s.temperature
  { temperature := updated_temperature, displacement := updated_displacement }

/-! ### Spec-modelled physics-module lifecycle

The `HeatTransfer` implementation (checkpoint bookkeeping, cycle counter,
adjoint stepping, sensitivity queries) is not among the provided sources —
only its callers and tests are — so the module state machine is modelled from
spec section 4.3. -/

/-- Modelled from the spec: the lifecycle states of a physics module
(spec section 4.3); `AdjointReady` is implicit in `SteppingForward` with a
nonzero cycle counter. -/
inductive LifecycleState where
  | Uninitialized
  | Configured
  | SteppingForward
  | SteppingBackward
  | Complete
  deriving DecidableEq, Repr

/-- Modelled from the spec: the observable state of a physics module — the
lifecycle phase, the cycle counter, the appended checkpoints (abstracted to
the timestep sizes used), and the accumulated sensitivity dual (abstracted to
one rational coefficient). -/
structure PhysicsModule where
  lifecycle : LifecycleState
  cycle : ℕ
  checkpoints : List ℚ
  sensitivity : ℚ
  deriving DecidableEq, Repr

/-- A freshly configured module: `completeSetup` has run, no step taken. -/
def PhysicsModule.configured : PhysicsModule where
  lifecycle := .Configured
  cycle := 0
  checkpoints := []
  sensitivity := 0

/-- Modelled from the spec: `advanceTimestep` (spec section 4.3) — legal from
`Configured` or `SteppingForward`, appends one checkpoint and increments the
cycle counter. -/
def PhysicsModule.advanceTimestep (m : PhysicsModule) (dt : ℚ) :
    Except SeracError PhysicsModule :=
  match m.lifecycle with
  | .Configured | .SteppingForward =>
      .ok { m with
            lifecycle := .SteppingForward,
            cycle := m.cycle + 1,
            checkpoints := m.checkpoints ++ [dt] }
  | _ => .error .InvalidState

/-- Modelled from the spec: `reverseAdjointTimestep` (spec section 4.3) —
legal only after at least one unconsumed forward step remains, consumes the
most recent checkpoint, decrements the cycle counter, accumulates the adjoint
load's sensitivity contribution, and reaches `Complete` at cycle 0, after
which further calls fail with `InvalidState`. -/
def PhysicsModule.reverseAdjointTimestep (m : PhysicsModule) (load : ℚ) :
    Except SeracError PhysicsModule :=
  if (m.lifecycle = .SteppingForward ∨ m.lifecycle = .SteppingBackward) ∧ m.cycle ≠ 0 then
    .ok { lifecycle := if m.cycle = 1 then .Complete else .SteppingBackward,
          cycle := m.cycle - 1,
          checkpoints := m.checkpoints.dropLast,
          sensitivity := m.sensitivity + load }
  else
    .error .InvalidState

/-- Modelled from the spec: `computeSensitivity` and its initial-temperature /
shape variants (spec section 4.3) — valid only in `SteppingBackward` or
`Complete`, returns the accumulated dual field without re-accumulating, and
leaves the module unchanged. -/
def PhysicsModule.computeSensitivity (m : PhysicsModule) :
    Except SeracError (ℚ × PhysicsModule) :=
  if m.lifecycle = .SteppingBackward ∨ m.lifecycle = .Complete then
    .ok (m.sensitivity, m)
  else
    .error .InvalidState

/-- `n` successive forward steps. -/
def PhysicsModule.advanceN (m : PhysicsModule) (dt : ℚ) :
    ℕ → Except SeracError PhysicsModule
  | 0 => .ok m
  | n + 1 => (m.advanceN dt n).bind (fun m' => m'.advanceTimestep dt)

/-- `n` successive reverse adjoint steps. -/
def PhysicsModule.reverseN (m : PhysicsModule) (load : ℚ) :
    ℕ → Except SeracError PhysicsModule
  | 0 => .ok m
  | n + 1 => (m.reverseAdjointTimestep load).bind (fun m' => m'.reverseN load n)

/-- Replaying a list of user `setParameter` calls, as an example driver would. -/
def Thermomechanics.applyParams (m : Thermomechanics) : List (ℕ × ℕ) → Thermomechanics
  | [] => m
  | (f, i) :: rest => (m.setParameter f i).applyParams rest

/-! ### Backward-Euler heat transfer with discrete adjoint (C1)

`computeStepQoi` and `computeStepAdjointLoad` are embedded from the test
driver `dynamic_thermal_adjoint.cpp`; the stepping and adjoint mechanics of
`HeatTransfer` are not among the provided sources and are modelled from the
spec (sections 4.2, 4.3, 8). -/

open Matrix

/-- Modelled from the spec: the backward-Euler heat-transfer module of spec
sections 4.2 and 8 (`M du/dt = f(u,t)`, constant conductivity, fixed source),
whose implementation is absent from src/.  With the spatial discretization
and linear solve supplied by collaborators, one backward-Euler step is the
affine update `u_(k+1) = A u_k + B s + c` on the coefficient vector: `A` is
the step operator `(M + dt K)^(-1) M`, `B` the (linearized) dependence of the
step on the shape-displacement coefficients `s`, and `c` the contribution of
the fixed unit source.  Machine doubles are modelled as exact rationals. -/
structure LinearHeatModel (n m : ℕ) where
  A : Matrix (Fin n) (Fin n) ℚ
  B : Matrix (Fin n) (Fin m) ℚ
  c : Fin n → ℚ
  dt : ℚ

namespace LinearHeatModel

variable {n m : ℕ}

/-- Forward trajectory: `advanceTimestep` iterated from initial temperature
`u0` under shape displacement `s` (spec section 4.3 forward stepping). -/
def traj (M : LinearHeatModel n m) (u0 : Fin n → ℚ) (s : Fin m → ℚ) : ℕ → (Fin n → ℚ)
  | 0 => u0
  | k + 1 => M.A *ᵥ (M.traj u0 s k) + M.B *ᵥ s + M.c

/-- `computeStepQoi` (dynamic_thermal_adjoint.cpp lines 35-39):
`0.5 * dt * innerProduct(T, T)`. -/
def stepQoi (dt : ℚ) (u : Fin n → ℚ) : ℚ :=
  1 / 2 * dt * (u ⬝ᵥ u)

/-- The quantity of interest accumulated over `N` forward steps
(dynamic_thermal_adjoint.cpp lines 139-146): after each step the step QoI of
the just-computed temperature is added. -/
def qoi (M : LinearHeatModel n m) (N : ℕ) (u0 : Fin n → ℚ) (s : Fin m → ℚ) : ℚ :=
  ∑ k ∈ Finset.range N, stepQoi M.dt (M.traj u0 s (k + 1))

/-- Modelled from the spec: the adjoint multipliers produced by the reverse
pass (spec section 4.3; driver loop at dynamic_thermal_adjoint.cpp lines
151-156).  `muAux M N u0 s j` is the multiplier of step `N - j + 1`, counting
`j` reverse steps taken from the final cycle: each reverse step adds the
caller-supplied adjoint load `dt • u_k` (`computeStepAdjointLoad`, lines
41-46) to the transpose-propagated multiplier of the following step. -/
def muAux (M : LinearHeatModel n m) (N : ℕ) (u0 : Fin n → ℚ) (s : Fin m → ℚ) :
    ℕ → (Fin n → ℚ)
  | 0 => 0
  | j + 1 => M.dt • M.traj u0 s (N - j) + M.Aᵀ *ᵥ (M.muAux N u0 s j)

/-- Modelled from the spec: `computeInitialTemperatureSensitivity` after the
complete reverse pass — the accumulated dual with respect to the initial
temperature, i.e. the final multiplier propagated once more through the
transposed step operator. -/
def initialTemperatureSensitivity (M : LinearHeatModel n m) (N : ℕ)
    (u0 : Fin n → ℚ) (s : Fin m → ℚ) : Fin n → ℚ :=
  M.Aᵀ *ᵥ (M.muAux N u0 s N)

/-- Modelled from the spec: the accumulated `computeTimestepShapeSensitivity`
contributions over the reverse pass (driver loop at
dynamic_thermal_adjoint.cpp lines 190-201): each reverse step contributes the
transposed shape-derivative of its residual applied to that step's adjoint
multiplier. -/
def shapeSensitivity (M : LinearHeatModel n m) (N : ℕ)
    (u0 : Fin n → ℚ) (s : Fin m → ℚ) : Fin m → ℚ :=
  ∑ i ∈ Finset.range N, M.Bᵀ *ᵥ (M.muAux N u0 s (i + 1))

/-- Tangent trajectory for a perturbation `v` of the initial temperature. -/
def tangentInit (M : LinearHeatModel n m) (v : Fin n → ℚ) : ℕ → (Fin n → ℚ)
  | 0 => v
  | k + 1 => M.A *ᵥ (M.tangentInit v k)

/-- Tangent trajectory for a perturbation `w` of the shape displacement. -/
def tangentShape (M : LinearHeatModel n m) (w : Fin m → ℚ) : ℕ → (Fin n → ℚ)
  | 0 => 0
  | k + 1 => M.A *ᵥ (M.tangentShape w k) + M.B *ᵥ w

/-- The second-order finite-difference remainder for an initial-temperature
perturbation: the QoI is quadratic, so the remainder is the QoI of the
tangent trajectory. -/
def fdRemainderInit (M : LinearHeatModel n m) (N : ℕ) (v : Fin n → ℚ) : ℚ :=
  ∑ k ∈ Finset.range N, stepQoi M.dt (M.tangentInit v (k + 1))

/-- The second-order finite-difference remainder for a shape perturbation. -/
def fdRemainderShape (M : LinearHeatModel n m) (N : ℕ) (w : Fin m → ℚ) : ℚ :=
  ∑ k ∈ Finset.range N, stepQoi M.dt (M.tangentShape w (k + 1))

end LinearHeatModel

/-- A concrete one-unknown instance of the heat model used to evaluate the
adjoint/finite-difference theorem: identity step operator and shape coupling,
unit source, `dt = 1/8` as in spec section 8's concrete scenario. -/
def exampleHeatModel : LinearHeatModel 1 1 where
  A := 1
  B := 1
  c := fun _ => 1
  dt := 1 / 8

/-- Constant vectors over the one-dimensional coefficient space, used to
instantiate the adjoint/finite-difference theorem concretely. -/
def vec1 (x : ℚ) : Fin 1 → ℚ := fun _ => x

/-! ## Helper lemmas -/

lemma six_dvd_three_consecutive (q : ℤ) : 6 ∣ q * (q + 1) * (q + 2) := by
  obtain ⟨k, r, hr0, hr6, rfl⟩ : ∃ k r : ℤ, 0 ≤ r ∧ r < 6 ∧ q = 6 * k + r :=
    ⟨q / 6, q % 6, Int.emod_nonneg q (by norm_num),
      Int.emod_lt_of_pos q (by norm_num), (Int.ediv_add_emod q 6).symm⟩
  interval_cases r
  · exact ⟨k * (6 * k + 1) * (6 * k + 2), by ring⟩
  · exact ⟨(6 * k + 1) * (3 * k + 1) * (2 * k + 1), by ring⟩
  · exact ⟨(3 * k + 1) * (2 * k + 1) * (6 * k + 4), by ring⟩
  · exact ⟨(2 * k + 1) * (3 * k + 2) * (6 * k + 5), by ring⟩
  · exact ⟨(6 * k + 4) * (6 * k + 5) * (k + 1), by ring⟩
  · exact ⟨(6 * k + 5) * (k + 1) * (6 * k + 7), by ring⟩

lemma two_dvd_two_consecutive (q : ℤ) : 2 ∣ q * (q + 1) := by
  rcases Int.even_or_odd q with ⟨k, hk⟩ | ⟨k, hk⟩
  · exact ⟨k * (q + 1), by rw [hk]; ring⟩
  · exact ⟨q * (k + 1), by rw [hk]; ring⟩

lemma advanceN_configured (dt : ℚ) :
    ∀ k : ℕ, PhysicsModule.configured.advanceN dt k =
      .ok { lifecycle := if k = 0 then .Configured else .SteppingForward,
            cycle := k, checkpoints := List.replicate k dt, sensitivity := 0 }
  | 0 => rfl
  | k + 1 => by
      rw [PhysicsModule.advanceN, advanceN_configured dt k]
      rcases Nat.eq_zero_or_pos k with hk | hk
      · subst hk
        simp [PhysicsModule.advanceTimestep, Except.bind, List.replicate_succ']
      · simp only [Except.bind, Nat.pos_iff_ne_zero.mp hk, if_false]
        simp [PhysicsModule.advanceTimestep, List.replicate_succ']

lemma reverseN_to_complete (load : ℚ) :
    ∀ (j : ℕ) (m : PhysicsModule),
      (m.lifecycle = .SteppingForward ∨ m.lifecycle = .SteppingBackward) →
      m.cycle = j → 0 < j →
      ∃ m', m.reverseN load j = .ok m' ∧ m'.cycle = 0 ∧ m'.lifecycle = .Complete
  | 0, _, _, _, h0 => absurd h0 (by norm_num)
  | 1, m, hl, hc, _ => by
      refine ⟨{ lifecycle := .Complete, cycle := 0, checkpoints := m.checkpoints.dropLast,
                sensitivity := m.sensitivity + load }, ?_, rfl, rfl⟩
      rw [PhysicsModule.reverseN, PhysicsModule.reverseAdjointTimestep,
        if_pos ⟨hl, by rw [hc]; norm_num⟩]
      simp [Except.bind, PhysicsModule.reverseN, hc]
  | j + 2, m, hl, hc, _ => by
      obtain ⟨m', hrun, hc0, hlc⟩ := reverseN_to_complete load (j + 1)
        { lifecycle := .SteppingBackward, cycle := j + 1,
          checkpoints := m.checkpoints.dropLast, sensitivity := m.sensitivity + load }
        (Or.inr rfl) rfl (Nat.succ_pos j)
      refine ⟨m', ?_, hc0, hlc⟩
      rw [PhysicsModule.reverseN, PhysicsModule.reverseAdjointTimestep,
        if_pos ⟨hl, by rw [hc]; norm_num⟩]
      simpa [Except.bind, hc] using hrun

namespace LinearHeatModel

variable {n m : ℕ}

lemma traj_init_perturb (M : LinearHeatModel n m) (u0 v : Fin n → ℚ)
    (s : Fin m → ℚ) (ε : ℚ) :
    ∀ k, M.traj (u0 + ε • v) s k = M.traj u0 s k + ε • M.tangentInit v k
  | 0 => rfl
  | k + 1 => by
      rw [traj, traj, tangentInit, traj_init_perturb M u0 v s ε k,
        mulVec_add, mulVec_smul]
      abel

lemma traj_shape_perturb (M : LinearHeatModel n m) (u0 : Fin n → ℚ)
    (s w : Fin m → ℚ) (ε : ℚ) :
    ∀ k, M.traj u0 (s + ε • w) k = M.traj u0 s k + ε • M.tangentShape w k
  | 0 => by
      rw [traj, traj, tangentShape]
      simp
  | k + 1 => by
      rw [traj, traj, tangentShape, traj_shape_perturb M u0 s w ε k,
        mulVec_add, mulVec_add, mulVec_smul, mulVec_smul, smul_add]
      abel

lemma stepQoi_expand (dt ε : ℚ) (u δ : Fin n → ℚ) :
    stepQoi dt (u + ε • δ) =
      stepQoi dt u + ε * (dt * (u ⬝ᵥ δ)) + ε ^ 2 * stepQoi dt δ := by
  simp only [stepQoi, dotProduct_add, add_dotProduct, dotProduct_smul,
    smul_dotProduct, smul_eq_mul, dotProduct_comm δ u]
  ring

lemma adjoint_pairing (M : LinearHeatModel n m) (N : ℕ) (u0 : Fin n → ℚ)
    (s : Fin m → ℚ) (w : Fin m → ℚ) (δ : ℕ → (Fin n → ℚ))
    (hδ : ∀ k, δ (k + 1) = M.A *ᵥ (δ k) + M.B *ᵥ w) :
    ∀ j, j ≤ N →
      ∑ i ∈ Finset.range j, M.dt * (M.traj u0 s (N - i) ⬝ᵥ δ (N - i)) =
        (δ (N - j) ⬝ᵥ (M.Aᵀ *ᵥ M.muAux N u0 s j)) +
          (w ⬝ᵥ ∑ i ∈ Finset.range j, M.Bᵀ *ᵥ (M.muAux N u0 s (i + 1)))
  | 0, _ => by
      simp [muAux]
  | j + 1, hj => by
      have hj' : j ≤ N := Nat.le_of_succ_le hj
      have hNj : N - j = (N - (j + 1)) + 1 := by omega
      have hstep : M.A *ᵥ δ (N - (j + 1)) = δ (N - j) - M.B *ᵥ w := by
        rw [hNj, hδ (N - (j + 1))]
        abel
      have e1 : δ (N - (j + 1)) ⬝ᵥ (M.Aᵀ *ᵥ M.muAux N u0 s (j + 1)) =
          (M.A *ᵥ δ (N - (j + 1))) ⬝ᵥ M.muAux N u0 s (j + 1) := by
        rw [dotProduct_mulVec, vecMul_transpose]
      have e2 : (M.A *ᵥ δ (N - (j + 1))) ⬝ᵥ M.muAux N u0 s (j + 1) =
          δ (N - j) ⬝ᵥ M.muAux N u0 s (j + 1) -
            (M.B *ᵥ w) ⬝ᵥ M.muAux N u0 s (j + 1) := by
        rw [hstep, sub_dotProduct]
      have e3 : δ (N - j) ⬝ᵥ M.muAux N u0 s (j + 1) =
          M.dt * (δ (N - j) ⬝ᵥ M.traj u0 s (N - j)) +
            δ (N - j) ⬝ᵥ (M.Aᵀ *ᵥ M.muAux N u0 s j) := by
        rw [muAux, dotProduct_add, dotProduct_smul, smul_eq_mul]
      have e4 : (M.B *ᵥ w) ⬝ᵥ M.muAux N u0 s (j + 1) =
          w ⬝ᵥ (M.Bᵀ *ᵥ M.muAux N u0 s (j + 1)) := by
        rw [dotProduct_comm, dotProduct_mulVec, ← mulVec_transpose, dotProduct_comm]
      have hcomm : δ (N - j) ⬝ᵥ M.traj u0 s (N - j) =
          M.traj u0 s (N - j) ⬝ᵥ δ (N - j) := dotProduct_comm _ _
      rw [Finset.sum_range_succ, adjoint_pairing M N u0 s w δ hδ j hj',
        Finset.sum_range_succ, dotProduct_add, e1, e2, e3, e4, hcomm]
      ring

lemma sum_dt_inner_init (M : LinearHeatModel n m) (N : ℕ) (u0 v : Fin n → ℚ)
    (s : Fin m → ℚ) :
    ∑ k ∈ Finset.range N, M.dt * (M.traj u0 s (k + 1) ⬝ᵥ M.tangentInit v (k + 1)) =
      v ⬝ᵥ M.initialTemperatureSensitivity N u0 s := by
  have hδ : ∀ k, M.tangentInit v (k + 1) =
      M.A *ᵥ (M.tangentInit v k) + M.B *ᵥ (0 : Fin m → ℚ) := by
    intro k
    rw [tangentInit, mulVec_zero, add_zero]
  have h := M.adjoint_pairing N u0 s 0 (M.tangentInit v) hδ N le_rfl
  rw [Nat.sub_self, zero_dotProduct, add_zero] at h
  have hre : ∑ i ∈ Finset.range N, M.dt * (M.traj u0 s (N - i) ⬝ᵥ M.tangentInit v (N - i)) =
      ∑ k ∈ Finset.range N, M.dt * (M.traj u0 s (k + 1) ⬝ᵥ M.tangentInit v (k + 1)) := by
    refine Eq.trans (Finset.sum_congr rfl fun i hi => ?_)
      (Finset.sum_range_reflect
        (fun k => M.dt * (M.traj u0 s (k + 1) ⬝ᵥ M.tangentInit v (k + 1))) N)
    have hidx : N - i = N - 1 - i + 1 := by
      have := Finset.mem_range.mp hi
      omega
    rw [hidx]
  rw [hre] at h
  rw [h, initialTemperatureSensitivity]
  rfl

lemma sum_dt_inner_shape (M : LinearHeatModel n m) (N : ℕ) (u0 : Fin n → ℚ)
    (s w : Fin m → ℚ) :
    ∑ k ∈ Finset.range N, M.dt * (M.traj u0 s (k + 1) ⬝ᵥ M.tangentShape w (k + 1)) =
      w ⬝ᵥ M.shapeSensitivity N u0 s := by
  have hδ : ∀ k, M.tangentShape w (k + 1) =
      M.A *ᵥ (M.tangentShape w k) + M.B *ᵥ w := fun k => by rw [tangentShape]
  have h := M.adjoint_pairing N u0 s w (M.tangentShape w) hδ N le_rfl
  rw [Nat.sub_self] at h
  have h0 : M.tangentShape w 0 = 0 := rfl
  rw [h0, zero_dotProduct, zero_add] at h
  have hre : ∑ i ∈ Finset.range N, M.dt * (M.traj u0 s (N - i) ⬝ᵥ M.tangentShape w (N - i)) =
      ∑ k ∈ Finset.range N, M.dt * (M.traj u0 s (k + 1) ⬝ᵥ M.tangentShape w (k + 1)) := by
    refine Eq.trans (Finset.sum_congr rfl fun i hi => ?_)
      (Finset.sum_range_reflect
        (fun k => M.dt * (M.traj u0 s (k + 1) ⬝ᵥ M.tangentShape w (k + 1))) N)
    have hidx : N - i = N - 1 - i + 1 := by
      have := Finset.mem_range.mp hi
      omega
    rw [hidx]
  rw [hre] at h
  rw [h, shapeSensitivity]

lemma qoi_init_expansion (M : LinearHeatModel n m) (N : ℕ) (u0 v : Fin n → ℚ)
    (s : Fin m → ℚ) (ε : ℚ) :
    M.qoi N (u0 + ε • v) s =
      M.qoi N u0 s + ε * (v ⬝ᵥ M.initialTemperatureSensitivity N u0 s) +
        ε ^ 2 * M.fdRemainderInit N v := by
  have hterm : ∀ k ∈ Finset.range N,
      stepQoi M.dt (M.traj (u0 + ε • v) s (k + 1)) =
        stepQoi M.dt (M.traj u0 s (k + 1)) +
          ε * (M.dt * (M.traj u0 s (k + 1) ⬝ᵥ M.tangentInit v (k + 1))) +
          ε ^ 2 * stepQoi M.dt (M.tangentInit v (k + 1)) := by
    intro k _
    rw [traj_init_perturb, stepQoi_expand]
  rw [qoi, Finset.sum_congr rfl hterm, Finset.sum_add_distrib, Finset.sum_add_distrib]
  have h1 : ∑ k ∈ Finset.range N,
      ε * (M.dt * (M.traj u0 s (k + 1) ⬝ᵥ M.tangentInit v (k + 1))) =
        ε * (v ⬝ᵥ M.initialTemperatureSensitivity N u0 s) := by
    rw [← Finset.mul_sum, sum_dt_inner_init]
  have h2 : ∑ k ∈ Finset.range N, ε ^ 2 * stepQoi M.dt (M.tangentInit v (k + 1)) =
      ε ^ 2 * M.fdRemainderInit N v := by
    rw [← Finset.mul_sum]
    rfl
  rw [h1, h2]
  rfl

lemma qoi_shape_expansion (M : LinearHeatModel n m) (N : ℕ) (u0 : Fin n → ℚ)
    (s w : Fin m → ℚ) (ε : ℚ) :
    M.qoi N u0 (s + ε • w) =
      M.qoi N u0 s + ε * (w ⬝ᵥ M.shapeSensitivity N u0 s) +
        ε ^ 2 * M.fdRemainderShape N w := by
  have hterm : ∀ k ∈ Finset.range N,
      stepQoi M.dt (M.traj u0 (s + ε • w) (k + 1)) =
        stepQoi M.dt (M.traj u0 s (k + 1)) +
          ε * (M.dt * (M.traj u0 s (k + 1) ⬝ᵥ M.tangentShape w (k + 1))) +
          ε ^ 2 * stepQoi M.dt (M.tangentShape w (k + 1)) := by
    intro k _
    rw [traj_shape_perturb, stepQoi_expand]
  rw [qoi, Finset.sum_congr rfl hterm, Finset.sum_add_distrib, Finset.sum_add_distrib]
  have h1 : ∑ k ∈ Finset.range N,
      ε * (M.dt * (M.traj u0 s (k + 1) ⬝ᵥ M.tangentShape w (k + 1))) =
        ε * (w ⬝ᵥ M.shapeSensitivity N u0 s) := by
    rw [← Finset.mul_sum, sum_dt_inner_shape]
  have h2 : ∑ k ∈ Finset.range N, ε ^ 2 * stepQoi M.dt (M.tangentShape w (k + 1)) =
      ε ^ 2 * M.fdRemainderShape N w := by
    rw [← Finset.mul_sum]
    rfl
  rw [h1, h2]
  rfl

end LinearHeatModel

/-! ## Claim theorems -/

/-- C9: `num_quadrature_points` returns `q` for SEGMENT, `q(q+1)/2` for
TRIANGLE, `q²` for SQUARE, `q(q+1)(q+2)/6` for TETRAHEDRON, `q³` for CUBE
(exact values — the C++ integer divisions are exact), `-1` for every other
geometry type, and is at least 1 for every supported geometry (those of
nonnegative `dimension_of`) whenever `q ≥ 1`. -/
theorem num_quadrature_points_spec :
    (∀ q : ℤ, num_quadrature_points .SEGMENT q = q) ∧
    (∀ q : ℤ, (num_quadrature_points .TRIANGLE q : ℚ) = q * (q + 1) / 2) ∧
    (∀ q : ℤ, num_quadrature_points .SQUARE q = q * q) ∧
    (∀ q : ℤ, (num_quadrature_points .TETRAHEDRON q : ℚ) = q * (q + 1) * (q + 2) / 6) ∧
    (∀ q : ℤ, num_quadrature_points .CUBE q = q * q * q) ∧
    (∀ q : ℤ, num_quadrature_points .POINT q = -1 ∧
      num_quadrature_points .PRISM q = -1 ∧ num_quadrature_points .PYRAMID q = -1) ∧
    (∀ (g : GeometryType) (q : ℤ),
      dimension_of g ≠ -1 → 1 ≤ q → 1 ≤ num_quadrature_points g q) := by
  have htri : ∀ q : ℤ, num_quadrature_points .TRIANGLE q * 2 = q * (q + 1) := by
    intro q
    obtain ⟨k, hk⟩ := two_dvd_two_consecutive q
    have hdef : num_quadrature_points .TRIANGLE q = Int.tdiv (q * (q + 1)) 2 := rfl
    rw [hdef, hk, Int.mul_tdiv_cancel_left k (by norm_num)]
    ring
  have htet : ∀ q : ℤ, num_quadrature_points .TETRAHEDRON q * 6 = q * (q + 1) * (q + 2) := by
    intro q
    obtain ⟨k, hk⟩ := six_dvd_three_consecutive q
    have hdef : num_quadrature_points .TETRAHEDRON q = Int.tdiv (q * (q + 1) * (q + 2)) 6 := rfl
    rw [hdef, hk, Int.mul_tdiv_cancel_left k (by norm_num)]
    ring
  refine ⟨fun q => rfl, ?_, fun q => rfl, ?_, fun q => rfl, fun q => ⟨rfl, rfl, rfl⟩, ?_⟩
  · intro q
    have h := htri q
    have hq : ((num_quadrature_points .TRIANGLE q * 2 : ℤ) : ℚ) =
        ((q * (q + 1) : ℤ) : ℚ) := by exact_mod_cast h
    push_cast at hq
    linarith
  · intro q
    have h := htet q
    have hq : ((num_quadrature_points .TETRAHEDRON q * 6 : ℤ) : ℚ) =
        ((q * (q + 1) * (q + 2) : ℤ) : ℚ) := by exact_mod_cast h
    push_cast at hq
    linarith
  · intro g q hg hq
    cases g
    · exact absurd rfl hg
    · exact hq
    · have h := htri q
      have hab : 2 ≤ q * (q + 1) := by nlinarith
      linarith
    · show 1 ≤ q * q
      nlinarith
    · have h := htet q
      have hab : 2 ≤ q * (q + 1) := by nlinarith
      have habc : 6 ≤ q * (q + 1) * (q + 2) := by nlinarith
      linarith
    · show 1 ≤ q * q * q
      nlinarith
    · exact absurd rfl hg
    · exact absurd rfl hg

/-- C9 witness: evaluation of the bounded conjunct at TRIANGLE and `q = 3`. -/
theorem num_quadrature_points_spec_witness :
    dimension_of .TRIANGLE ≠ -1 ∧ (1 : ℤ) ≤ 3 ∧
      1 ≤ num_quadrature_points .TRIANGLE 3 :=
  ⟨by decide, by decide,
    num_quadrature_points_spec.2.2.2.2.2.2 .TRIANGLE 3 (by decide) (by decide)⟩

/-- C8: `stateNames()` returns exactly "displacement", "velocity",
"temperature"; `state` maps each to the corresponding sub-module field; any
other name is a fatal error. -/
theorem tm_state_access_spec :
    Thermomechanics.stateNames = ["displacement", "velocity", "temperature"] ∧
    Thermomechanics.state "displacement" = .ok .displacement ∧
    Thermomechanics.state "velocity" = .ok .velocity ∧
    Thermomechanics.state "temperature" = .ok .temperature ∧
    (∀ s : String, s ∉ Thermomechanics.stateNames →
      Thermomechanics.state s = .error .FatalError) := by
  refine ⟨rfl, by simp [Thermomechanics.state], by simp [Thermomechanics.state],
    by simp [Thermomechanics.state], ?_⟩
  intro s hs
  simp only [Thermomechanics.stateNames, List.mem_cons, List.mem_singleton,
    not_or] at hs
  obtain ⟨h1, h2, h3⟩ := hs
  simp [Thermomechanics.state, h1, h2, h3]

/-- C8 witness: an unrecognized name ("pressure") is a fatal error. -/
theorem tm_state_access_spec_witness :
    "pressure" ∉ Thermomechanics.stateNames ∧
      Thermomechanics.state "pressure" = .error .FatalError :=
  ⟨by decide, tm_state_access_spec.2.2.2.2 "pressure" (by decide)⟩

/-- C10: the coupled module reserves parameter slot 0 of each sub-module for
the cross-coupled field — slot 0 stays the solid displacement (thermal side)
and the thermal temperature (solid side) under any sequence of user
`setParameter` calls — and `setParameter(f, i)` registers the user field at
slot `i + 1` of both sub-modules, never colliding with slot 0. -/
theorem tm_parameter_slot_spec :
    (∀ calls : List (ℕ × ℕ),
      (Thermomechanics.construct.applyParams calls).thermalParams 0 =
        some .solidDisplacement ∧
      (Thermomechanics.construct.applyParams calls).solidParams 0 =
        some .thermalTemperature) ∧
    (∀ (m : Thermomechanics) (f i : ℕ),
      (m.setParameter f i).thermalParams (i + 1) = some (.userField f) ∧
      (m.setParameter f i).solidParams (i + 1) = some (.userField f) ∧
      i + 1 ≠ 0) := by
  constructor
  · have key : ∀ (calls : List (ℕ × ℕ)) (m : Thermomechanics),
        m.thermalParams 0 = some .solidDisplacement →
        m.solidParams 0 = some .thermalTemperature →
        (m.applyParams calls).thermalParams 0 = some .solidDisplacement ∧
        (m.applyParams calls).solidParams 0 = some .thermalTemperature := by
      intro calls
      induction calls with
      | nil => exact fun m ht hs => ⟨ht, hs⟩
      | cons c rest ih =>
          intro m ht hs
          obtain ⟨f, i⟩ := c
          exact ih (m.setParameter f i)
            (by simpa [Thermomechanics.setParameter] using ht)
            (by simpa [Thermomechanics.setParameter] using hs)
    intro calls
    exact key calls Thermomechanics.construct (by rfl) (by rfl)
  · intro m f i
    exact ⟨by simp [Thermomechanics.setParameter], by simp [Thermomechanics.setParameter],
      Nat.succ_ne_zero i⟩

/-- C2 counterexample: the thermal sub-step alters `dt` (from 1 to 2), the
solid sub-step restores it, and the coupled step succeeds with no
`InconsistentTimestep` error — the claim's "a sub-module that alters dt
during its sub-step causes a fatal InconsistentTimestep error, detected
after either sub-step" is false on the code, which checks only once after
both sub-steps. -/
theorem tm_dt_alteration_not_detected :
    (fun _ : ℚ => (2 : ℚ)) 1 ≠ 1 ∧
    Thermomechanics.construct.advanceTimestep (fun _ => 2) (fun _ => 1) 1 =
      .ok ({ Thermomechanics.construct with cycle := 1 }, 1) := by
  constructor
  · norm_num
  · norm_num [Thermomechanics.advanceTimestep, Thermomechanics.construct]

/-- C2 (amended): under operator split, both sub-steps always run (the solid
sub-step receiving the thermal sub-step's output); a single check after both
sub-steps raises fatal `InconsistentTimestep` exactly when the final `dt`
differs from the initial `dt` by more than `1e-6`; if both sub-modules leave
`dt` unmodified the coupled step succeeds, `dt` is returned unchanged, and
the cycle counter increments. -/
theorem tm_dt_consistency_check (m : Thermomechanics)
    (hm : m.coupling = .OperatorSplit) (thermalStep solidStep : ℚ → ℚ) (dt : ℚ) :
    (|solidStep (thermalStep dt) - dt| > 1 / 1000000 →
      m.advanceTimestep thermalStep solidStep dt = .error .InconsistentTimestep) ∧
    (|solidStep (thermalStep dt) - dt| ≤ 1 / 1000000 →
      m.advanceTimestep thermalStep solidStep dt =
        .ok ({ m with cycle := m.cycle + 1 }, solidStep (thermalStep dt))) ∧
    (thermalStep dt = dt → solidStep dt = dt →
      m.advanceTimestep thermalStep solidStep dt =
        .ok ({ m with cycle := m.cycle + 1 }, dt)) := by
  refine ⟨fun hgt => ?_, fun hle => ?_, fun ht hs => ?_⟩
  · simp only [Thermomechanics.advanceTimestep, hm]
    rw [if_pos hgt]
  · simp only [Thermomechanics.advanceTimestep, hm]
    rw [if_neg (not_lt.mpr hle)]
  · simp only [Thermomechanics.advanceTimestep, hm, ht, hs]
    rw [if_neg (by simp)]

/-- C2 witness: with both sub-steps leaving `dt` untouched, the coupled step
succeeds and returns `dt` unchanged. -/
theorem tm_dt_consistency_check_witness :
    Thermomechanics.construct.coupling = .OperatorSplit ∧
    Thermomechanics.construct.advanceTimestep (fun d => d) (fun d => d) 1 =
      .ok ({ Thermomechanics.construct with cycle := Thermomechanics.construct.cycle + 1 }, 1) :=
  ⟨rfl, (tm_dt_consistency_check Thermomechanics.construct rfl
    (fun d => d) (fun d => d) 1).2.2 rfl rfl⟩

/-- C4: within one operator-split coupling step each sub-module advances
exactly once in the fixed order thermal-then-mechanical; the data flow is
Gauss-Seidel as spec section 4.4 words it — the solid solve consumes the
thermal module's just-updated temperature while the thermal solve consumes
the solid displacement of the previous step — and it disagrees with spec
section 3's coupling-descriptor wording (both modules reading the other's
previous-step state), exhibited at a concrete instance. -/
theorem tm_coupling_data_flow :
    (∀ (F : Type) (thermalAdvance solidAdvance : F → F → F) (s : CoupledFields F),
      coupledStep thermalAdvance solidAdvance s =
        gaussSeidelSpecStep thermalAdvance solidAdvance s ∧
      (coupledStep thermalAdvance solidAdvance s).temperature =
        thermalAdvance s.temperature s.displacement ∧
      (coupledStep thermalAdvance solidAdvance s).displacement =
        solidAdvance s.displacement (thermalAdvance s.temperature s.displacement)) ∧
    coupledStep (fun _ d => d) (fun _ t => t)
        ({ temperature := 1, displacement := 2 } : CoupledFields ℚ) ≠
      jacobiSpecStep (fun _ d => d) (fun _ t => t)
        ({ temperature := 1, displacement := 2 } : CoupledFields ℚ) := by
  refine ⟨fun F thermalAdvance solidAdvance s => ⟨rfl, rfl, rfl⟩, ?_⟩
  simp only [coupledStep, jacobiSpecStep, ne_eq, CoupledFields.mk.injEq, not_and]
  intro _
  norm_num

/-- C5: selecting any coupling strategy other than operator split makes
`completeSetup()` fail with `UnsupportedOperation`, and a driver running
`completeSetup` followed by any number of forward steps fails the same way —
no forward stepping occurs and no silent fallback happens. -/
theorem tm_unsupported_coupling (m : Thermomechanics)
    (h : m.coupling ≠ .OperatorSplit) (thermalStep solidStep : ℚ → ℚ)
    (dt : ℚ) (n : ℕ) :
    m.completeSetup = .error .UnsupportedOperation ∧
    m.runForward thermalStep solidStep dt n = .error .UnsupportedOperation := by
  have hsetup : m.completeSetup = .error .UnsupportedOperation := by
    simp [Thermomechanics.completeSetup, h]
  refine ⟨hsetup, ?_⟩
  induction n with
  | zero => exact hsetup
  | succ n ih =>
      simp only [Thermomechanics.runForward, ih]
      rfl

/-- C5 witness: a monolithic-coupling module fails setup and cannot step. -/
theorem tm_unsupported_coupling_witness :
    ({ Thermomechanics.construct with
        coupling := .Monolithic } : Thermomechanics).completeSetup =
      .error .UnsupportedOperation ∧
    ({ Thermomechanics.construct with
        coupling := .Monolithic } : Thermomechanics).runForward
        (fun d => d) (fun d => d) 1 3 = .error .UnsupportedOperation := by
  have h := tm_unsupported_coupling
    ({ Thermomechanics.construct with coupling := .Monolithic }) (by simp)
    (fun d => d) (fun d => d) 1 3
  exact h

/-- C6: every successful `advanceTimestep` appends exactly one checkpoint and
increments the cycle counter by exactly one; from a freshly configured module
`k` successful forward steps leave `cycle() = k` with `k` checkpoints, and a
successful step of the coupled thermomechanics module likewise increments its
cycle counter by one. -/
theorem advance_checkpoint_cycle_spec :
    (∀ (m : PhysicsModule) (dt : ℚ) (m' : PhysicsModule),
      m.advanceTimestep dt = .ok m' →
      m'.cycle = m.cycle + 1 ∧ m'.checkpoints.length = m.checkpoints.length + 1) ∧
    (∀ (k : ℕ) (dt : ℚ), ∃ m : PhysicsModule,
      PhysicsModule.configured.advanceN dt k = .ok m ∧
      m.cycle = k ∧ m.checkpoints.length = k) ∧
    (∀ (tm : Thermomechanics) (thermalStep solidStep : ℚ → ℚ) (dt : ℚ)
      (tm' : Thermomechanics) (dtOut : ℚ),
      tm.advanceTimestep thermalStep solidStep dt = .ok (tm', dtOut) →
      tm'.cycle = tm.cycle + 1) := by
  refine ⟨?_, ?_, ?_⟩
  · intro m dt m' h
    cases hl : m.lifecycle <;>
      simp only [PhysicsModule.advanceTimestep, hl] at h
    · exact Except.noConfusion h
    · rw [Except.ok.injEq] at h
      subst h
      exact ⟨rfl, by simp⟩
    · rw [Except.ok.injEq] at h
      subst h
      exact ⟨rfl, by simp⟩
    · exact Except.noConfusion h
    · exact Except.noConfusion h
  · intro k dt
    exact ⟨_, advanceN_configured dt k, rfl, by simp⟩
  · intro tm thermalStep solidStep dt tm' dtOut h
    cases hc : tm.coupling <;>
      simp only [Thermomechanics.advanceTimestep, hc] at h
    · split at h
      · exact Except.noConfusion h
      · rw [Except.ok.injEq, Prod.mk.injEq] at h
        obtain ⟨h3, h4⟩ := h
        subst h3
        rfl
    · exact Except.noConfusion h

/-- C6 witness: one forward step from the freshly configured module yields
cycle 1 and one checkpoint. -/
theorem advance_checkpoint_cycle_spec_witness :
    ({ lifecycle := .SteppingForward, cycle := 1, checkpoints := [1],
       sensitivity := 0 } : PhysicsModule).cycle =
        PhysicsModule.configured.cycle + 1 ∧
    ({ lifecycle := .SteppingForward, cycle := 1, checkpoints := [1],
       sensitivity := 0 } : PhysicsModule).checkpoints.length =
        PhysicsModule.configured.checkpoints.length + 1 :=
  advance_checkpoint_cycle_spec.1 PhysicsModule.configured 1
    { lifecycle := .SteppingForward, cycle := 1, checkpoints := [1], sensitivity := 0 }
    (by simp [PhysicsModule.advanceTimestep, PhysicsModule.configured])

/-- C3: after `N` forward steps from a freshly configured module followed by
exactly `N` reverse adjoint steps, the cycle counter is exactly 0, and an
`(N+1)`-th `reverseAdjointTimestep` fails with `InvalidState` instead of
proceeding. -/
theorem checkpoint_symmetry_spec :
    ∀ (N : ℕ) (dt load : ℚ), ∃ mf mr : PhysicsModule,
      PhysicsModule.configured.advanceN dt N = .ok mf ∧
      mf.reverseN load N = .ok mr ∧
      mr.cycle = 0 ∧
      mr.reverseAdjointTimestep load = .error .InvalidState := by
  intro N dt load
  rcases Nat.eq_zero_or_pos N with hN | hN
  · subst hN
    refine ⟨PhysicsModule.configured, PhysicsModule.configured, rfl, rfl, rfl, ?_⟩
    simp [PhysicsModule.reverseAdjointTimestep, PhysicsModule.configured]
  · obtain ⟨mr, hrev, hc0, hcomp⟩ := reverseN_to_complete load N
      { lifecycle := if N = 0 then .Configured else .SteppingForward,
        cycle := N, checkpoints := List.replicate N dt, sensitivity := 0 }
      (by rw [if_neg (Nat.pos_iff_ne_zero.mp hN)]; exact Or.inl rfl) rfl hN
    refine ⟨_, mr, advanceN_configured dt N, hrev, hc0, ?_⟩
    simp [PhysicsModule.reverseAdjointTimestep, hc0]

/-- C7: once the adjoint pass is underway or complete, the sensitivity query
returns the accumulated dual without re-accumulating — it leaves the module
unchanged, and a second call returns a result identical to the first. -/
theorem sensitivity_query_idempotent (m : PhysicsModule)
    (h : m.lifecycle = .SteppingBackward ∨ m.lifecycle = .Complete) :
    m.computeSensitivity = .ok (m.sensitivity, m) ∧
    (m.computeSensitivity.bind fun p => p.2.computeSensitivity) =
      m.computeSensitivity := by
  have h1 : m.computeSensitivity = .ok (m.sensitivity, m) := by
    simp [PhysicsModule.computeSensitivity, h]
  exact ⟨h1, by rw [h1]; exact h1⟩

/-- C7 witness: a completed module returns its accumulated sensitivity,
twice identically. -/
theorem sensitivity_query_idempotent_witness :
    ({ lifecycle := .Complete, cycle := 0, checkpoints := [],
       sensitivity := 5 } : PhysicsModule).computeSensitivity =
      .ok (5, { lifecycle := .Complete, cycle := 0, checkpoints := [],
                sensitivity := 5 }) ∧
    (({ lifecycle := .Complete, cycle := 0, checkpoints := [],
        sensitivity := 5 } : PhysicsModule).computeSensitivity.bind
          fun p => p.2.computeSensitivity) =
      ({ lifecycle := .Complete, cycle := 0, checkpoints := [],
         sensitivity := 5 } : PhysicsModule).computeSensitivity :=
  sensitivity_query_idempotent
    { lifecycle := .Complete, cycle := 0, checkpoints := [], sensitivity := 5 }
    (Or.inr rfl)


/-- C1: for the backward-Euler heat module stepped forward `N` times and
reversed `N` times, the adjoint-computed directional derivative of the
accumulated quantity of interest — the inner product of the direction with
the accumulated sensitivity dual — matches the forward finite-difference
estimate `(Q(x + ε d) - Q(x)) / ε` to within `O(ε)`: the deviation is at most
`|ε|` times a constant depending only on the model and the direction, both
for a perturbation of the initial temperature (direction `v`) and for a
perturbation of the shape displacement (direction `w`). -/
theorem heat_adjoint_matches_finite_difference {n m : ℕ}
    (M : LinearHeatModel n m) (N : ℕ) (u0 v : Fin n → ℚ) (s w : Fin m → ℚ)
    (ε : ℚ) (hε : ε ≠ 0) :
    |(M.qoi N (u0 + ε • v) s - M.qoi N u0 s) / ε -
        v ⬝ᵥ M.initialTemperatureSensitivity N u0 s| ≤
      |ε| * |M.fdRemainderInit N v| ∧
    |(M.qoi N u0 (s + ε • w) - M.qoi N u0 s) / ε -
        w ⬝ᵥ M.shapeSensitivity N u0 s| ≤
      |ε| * |M.fdRemainderShape N w| := by
  constructor
  · have h := M.qoi_init_expansion N u0 v s ε
    have hkey : (M.qoi N (u0 + ε • v) s - M.qoi N u0 s) / ε -
        v ⬝ᵥ M.initialTemperatureSensitivity N u0 s = ε * M.fdRemainderInit N v := by
      rw [h]
      field_simp
      ring
    rw [hkey, abs_mul]
  · have h := M.qoi_shape_expansion N u0 s w ε
    have hkey : (M.qoi N u0 (s + ε • w) - M.qoi N u0 s) / ε -
        w ⬝ᵥ M.shapeSensitivity N u0 s = ε * M.fdRemainderShape N w := by
      rw [h]
      field_simp
      ring
    rw [hkey, abs_mul]


/-- C1 witness: the theorem applied to the concrete one-unknown model with
`N = 4` steps, `ε = 1/100`, and fixed perturbation directions. -/
theorem heat_adjoint_matches_finite_difference_witness :
    ((1 : ℚ) / 100 ≠ 0) ∧
    (|(exampleHeatModel.qoi 4 (vec1 2 + (1 / 100 : ℚ) • vec1 1) (vec1 0) -
          exampleHeatModel.qoi 4 (vec1 2) (vec1 0)) / (1 / 100) -
        vec1 1 ⬝ᵥ exampleHeatModel.initialTemperatureSensitivity 4 (vec1 2) (vec1 0)| ≤
      |(1 : ℚ) / 100| * |exampleHeatModel.fdRemainderInit 4 (vec1 1)| ∧
    |(exampleHeatModel.qoi 4 (vec1 2) (vec1 0 + (1 / 100 : ℚ) • vec1 1) -
          exampleHeatModel.qoi 4 (vec1 2) (vec1 0)) / (1 / 100) -
        vec1 1 ⬝ᵥ exampleHeatModel.shapeSensitivity 4 (vec1 2) (vec1 0)| ≤
      |(1 : ℚ) / 100| * |exampleHeatModel.fdRemainderShape 4 (vec1 1)|) :=
  ⟨by norm_num,
    heat_adjoint_matches_finite_difference exampleHeatModel 4
      (vec1 2) (vec1 1) (vec1 0) (vec1 1) (1 / 100) (by norm_num)⟩

end Serac
